import Mathlib

/-!
Shallow embedding of the Chord DHT node of this repository
(src/src/utils.py, src/src/finger_table.py, src/src/node.py), together with
theorems settling the specification claims about it.

Conventions:
* Identifiers are natural numbers; RING_BITS and RING_SIZE come from utils.py.
* NodeInfo mirrors the dataclass in utils.py; Python compares NodeInfo by id only.
* Outbound RPC calls are modelled by oracle arguments; an RPC that can fail
  yields an Except value, with error standing for a raised grpc exception.
* The protobuf NodeInfo message carries its id as a decimal string; that field is
  modelled by its content: none for the empty string (Python falsy), some i for
  the nonempty decimal rendering str(i), which int() parses back to i.
-/

namespace Chord

/-- RING_BITS from src/src/utils.py. -/
def RING_BITS : Nat := 8

/-- RING_SIZE from src/src/utils.py. -/
def RING_SIZE : Nat := 2 ^ RING_BITS

/-- NodeInfo dataclass from src/src/utils.py: an identifier and an address. -/
structure NodeInfo where
  id : Nat
  address : String
deriving DecidableEq

/-- Python NodeInfo.__eq__ from src/src/utils.py: equality is by id alone. -/
def NodeInfo.pyEq (x y : NodeInfo) : Bool := x.id == y.id

/-- Protobuf NodeInfo message: fields id and address. The id field (a decimal
    string on the wire) is modelled by its content: none for the empty string
    (Python falsy), some i for str(i). -/
structure ProtoNodeInfo where
  id : Option Nat
  address : String
deriving DecidableEq

/-- Node._node_info_to_proto from src/src/node.py: NodeInfo(id=str(n.id),
    address=n.address). A decimal rendering str(n.id) is never empty, hence some. -/
def node_info_to_proto (n : NodeInfo) : ProtoNodeInfo :=
  ⟨some n.id, n.address⟩

/-- Node._proto_to_node_info from src/src/node.py: None when the id or the address
    field is falsy (empty), otherwise NodeInfo(int(id), address). -/
def proto_to_node_info (p : ProtoNodeInfo) : Option NodeInfo :=
  if p.id = none ∨ p.address = "" then none
  else some ⟨p.id.getD 0, p.address⟩

/-- FingerEntry from src/src/finger_table.py: a start identifier and the NodeInfo
    believed responsible for it. The successor field stores whatever
    find_successor returned, which can be Python None, hence an Option. -/
structure FingerEntry where
  start : Nat
  successor : Option NodeInfo
deriving DecidableEq

/-- Mutable state of a Node (Node.__init__ in src/src/node.py together with the
    FingerTable of src/src/finger_table.py): id, address, successor, predecessor,
    the fingers list (FingerTable.fingers, m entries initialised to None) and the
    next_finger cursor. The successor attribute is an Option because the Python
    code can store None into it (see join below). -/
structure NodeState where
  id : Nat
  address : String
  successor : Option NodeInfo
  predecessor : Option NodeInfo
  fingers : List (Option FingerEntry)
  next_finger : Nat
deriving DecidableEq

/-- Node.__init__ from src/src/node.py: the id is hash_key(address), the SHA-1 of
    the address reduced mod RING_SIZE; the hash is computed by hashlib outside
    this embedding and is therefore received as an argument. The successor starts
    as NodeInfo(id, address), the predecessor absent, the finger table as
    RING_BITS unset entries and next_finger at 0. -/
def Node.init (address : String) (id : Nat) : NodeState :=
  { id := id
    address := address
    successor := some ⟨id, address⟩
    predecessor := none
    fingers := List.replicate RING_BITS none
    next_finger := 0 }

/-- FingerTable.start from src/src/finger_table.py: (node_id + 2^i) mod RING_SIZE. -/
def fingerStart (node_id i : Nat) : Nat := (node_id + 2 ^ i) % RING_SIZE

/-- Node._in_range from src/src/node.py: circular interval membership with four
    inclusivity combinations. Equal endpoints yield inclusive_start or
    inclusive_end, an interval without wraparound a linear test, a wrapping
    interval a disjunction. -/
def in_range (key start stop : Nat) (inclusive_start inclusive_end : Bool) : Bool :=
  if start = stop then inclusive_start || inclusive_end
  else if start < stop then
    if inclusive_start && inclusive_end then decide (start ≤ key ∧ key ≤ stop)
    else if inclusive_start then decide (start ≤ key ∧ key < stop)
    else if inclusive_end then decide (start < key ∧ key ≤ stop)
    else decide (start < key ∧ key < stop)
  else
    if inclusive_start && inclusive_end then decide (key ≥ start ∨ key ≤ stop)
    else if inclusive_start then decide (key ≥ start ∨ key < stop)
    else if inclusive_end then decide (key > start ∨ key ≤ stop)
    else decide (key > start ∨ key < stop)

/-- Type of the outbound FindSuccessor RPC environment: stub address and id of the
    request, and either a raised grpc error or the protobuf reply. -/
abbrev Oracle : Type := String → Nat → Except Unit ProtoNodeInfo

/-- Loop of Node.closest_preceding_finger from src/src/node.py: the index runs
    from len-1 down to 0; unset entries and entries whose successor is None are
    skipped (the Python truthiness guard); the first finger whose id lies in the
    open interval (self.id, id) is returned. The Nat argument is one past the
    highest index still to inspect. -/
def cpfAux (st : NodeState) (idArg : Nat) : Nat → Option NodeInfo
  | 0 => none
  | i + 1 =>
    match st.fingers.getD i none with
    | some fe =>
      match fe.successor with
      | some fn =>
        if in_range fn.id st.id idArg false false = true then some fn
        else cpfAux st idArg i
      | none => cpfAux st idArg i
    | none => cpfAux st idArg i

/-- Node.closest_preceding_finger from src/src/node.py: the loop above, falling
    back to NodeInfo(self.id, self.address) when no finger qualifies. -/
def closest_preceding_finger (st : NodeState) (idArg : Nat) : NodeInfo :=
  (cpfAux st idArg st.fingers.length).getD ⟨st.id, st.address⟩

/-- Node.find_successor from src/src/node.py, returning the (unmodified) node
    state paired with the Python return value: the method performs no assignment
    to self. If id lies in the doubly inclusive interval from self.id to
    successor.id the local successor is returned; otherwise the lookup is
    forwarded to the closest preceding finger, unless that is self; a raised RPC
    error is logged and the local successor returned as fallback. A node whose
    successor attribute is None raises AttributeError (modelled as none). -/
def find_successor (st : NodeState) (oracle : Oracle) (idArg : Nat) :
    NodeState × Option NodeInfo :=
  match st.successor with
  | none => (st, none)
  | some succ =>
    if in_range idArg st.id succ.id true true = true then (st, some succ)
    else
      let closest := closest_preceding_finger st idArg
      if closest.id = st.id then (st, some succ)
      else
        match oracle closest.address idArg with
        | Except.ok resp => (st, proto_to_node_info resp)
        | Except.error _ => (st, some succ)

/-- Successor-adoption part of Node.stabilize from src/src/node.py (the body of
    the try block up to the Notify call): x is the decoded GetPredecessor reply
    obtained from the current successor. When x exists, differs from self and
    lies in the open interval (self.id, successor.id), it is adopted as successor
    and finger 0 is rewritten to it. A node whose successor attribute is None
    raises before reaching this test and the exception is swallowed by the
    surrounding except, leaving the state unchanged. -/
def stabilize_update (st : NodeState) (x : Option NodeInfo) : NodeState :=
  match st.successor with
  | none => st
  | some succ =>
    match x with
    | none => st
    | some xi =>
      if xi.id ≠ st.id ∧ in_range xi.id st.id succ.id false false = true then
        { st with
            successor := some xi
            fingers := st.fingers.set 0 (some ⟨fingerStart st.id 0, some xi⟩) }
      else st

/-- Node.notify from src/src/node.py: adopt the notifier as predecessor when
    there is none, or when it lies strictly between the current predecessor and
    self. -/
def notify (st : NodeState) (node : NodeInfo) : NodeState :=
  match st.predecessor with
  | none => { st with predecessor := some node }
  | some pred =>
    if in_range node.id pred.id st.id false false = true then
      { st with predecessor := some node }
    else st

/-- Node.fix_fingers from src/src/node.py: refresh the finger at next_finger with
    find_successor of its start, skipping the write when the lookup returned
    None, and advance next_finger round-robin modulo the table length. -/
def fix_fingers (st : NodeState) (oracle : Oracle) : NodeState :=
  let start := fingerStart st.id st.next_finger
  let succ := (find_successor st oracle start).2
  match succ with
  | some s =>
    { st with
        fingers := st.fingers.set st.next_finger (some ⟨start, some s⟩)
        next_finger := (st.next_finger + 1) % st.fingers.length }
  | none => { st with next_finger := (st.next_finger + 1) % st.fingers.length }

/-- Node.check_predecessor from src/src/node.py: Ping the predecessor if present
    and clear it when the Ping raises; alive gives the Ping outcome per address. -/
def check_predecessor (st : NodeState) (alive : String → Bool) : NodeState :=
  match st.predecessor with
  | none => st
  | some pred => if alive pred.address then st else { st with predecessor := none }

/-- Branch of Node.join from src/src/node.py for existing_node_address = None:
    create a new ring; the successor is reset to NodeInfo(self.id, self.address),
    the predecessor to None and every finger entry i to (start i, self). The
    method returns True. -/
def join_nil (st : NodeState) : NodeState × Bool :=
  ({ st with
      successor := some ⟨st.id, st.address⟩
      predecessor := none
      fingers := (List.range st.fingers.length).map
        fun i => some ⟨fingerStart st.id i, some ⟨st.id, st.address⟩⟩ },
   true)

/-- Node._init_finger_table from src/src/node.py: for each finger index i in
    order, look up the successor of start i with find_successor (which consults
    the table as filled in so far) and store the entry. -/
def init_finger_table (st : NodeState) (oracle : Oracle) : NodeState :=
  (List.range st.fingers.length).foldl
    (fun s i =>
      let start := fingerStart s.id i
      let finger_succ := (find_successor s oracle start).2
      { s with fingers := s.fingers.set i (some ⟨start, finger_succ⟩) })
    st

/-- Branch of Node.join from src/src/node.py for a given bootstrap address. The
    bootstrap FindSuccessor RPC either raises (Except.error: caught, join returns
    False with the state unchanged) or yields a protobuf reply. The decoded reply
    is stored into self.successor BEFORE the None check, so a reply with empty
    fields leaves successor = None when the subsequent raise is caught and join
    returns False. Otherwise the predecessor is cleared, the finger table is
    initialised and join returns True. -/
def join_existing (st : NodeState) (bootResp : Except Unit ProtoNodeInfo)
    (oracle : Oracle) : NodeState × Bool :=
  match bootResp with
  | Except.error _ => (st, false)
  | Except.ok resp =>
    let st1 := { st with successor := proto_to_node_info resp }
    match st1.successor with
    | none => (st1, false)
    | some _ =>
      let st2 := { st1 with predecessor := none }
      (init_finger_table st2 oracle, true)

/-- RPC handler GetPredecessor from src/src/node.py: serialize the predecessor,
    or an empty NodeInfo message when it is absent. -/
def getPredecessorHandler (st : NodeState) : ProtoNodeInfo :=
  match st.predecessor with
  | some p => node_info_to_proto p
  | none => ⟨none, ""⟩

/-- Closed two-node system of scenario S2: the node bound at address a:1 and the
    node bound at address b:2. -/
structure Sys where
  a : NodeState
  b : NodeState
deriving DecidableEq

/-- Address resolution inside the closed two-node system: a stub for address a:1
    reaches node a; the only other live address, b:2, reaches node b. -/
def addrIsA (addr : String) : Bool := addr == "a:1"

/-- Node selected by a resolved address (true picks the node at a:1). -/
def Sys.get (sys : Sys) : Bool → NodeState
  | true => sys.a
  | false => sys.b

/-- Replace the state of the selected node. -/
def Sys.set (sys : Sys) : Bool → NodeState → Sys
  | true, st => { sys with a := st }
  | false, st => { sys with b := st }

/-- RPC environment for FindSuccessor inside the two-node system: the handler
    (Node.FindSuccessor) runs find_successor on the resolved node and serializes
    its result; serializing a None result raises inside the handler and surfaces
    as an RPC error at the caller. Recursion depth is bounded by fuel; exhausted
    fuel is an RPC error (callers then fall back to their local successor,
    exactly as the source does on any grpc error). -/
def sysFindOracle : Nat → Sys → Oracle
  | 0, _, _, _ => Except.error ()
  | fuel + 1, sys, addr, i =>
    match (find_successor (sys.get (addrIsA addr)) (sysFindOracle fuel sys) i).2 with
    | some r => Except.ok (node_info_to_proto r)
    | none => Except.error ()

/-- Node.stabilize run by one node of the two-node system, with both RPCs
    resolved in-system: GetPredecessor is served by the node that the current
    successor address resolves to, stabilize_update is applied locally, then
    Notify(self) is served by the node that the possibly updated successor
    address resolves to (the handler decodes the message and calls notify).
    Both peers are live, so neither RPC raises. -/
def stabilizeSys (sys : Sys) (isA : Bool) : Sys :=
  let st := sys.get isA
  match st.successor with
  | none => sys
  | some succ =>
    let target := sys.get (addrIsA succ.address)
    let x := proto_to_node_info (getPredecessorHandler target)
    let st' := stabilize_update st x
    let sys' := sys.set isA st'
    match st'.successor with
    | none => sys'
    | some succ' =>
      let tIsA := addrIsA succ'.address
      match proto_to_node_info (node_info_to_proto ⟨st'.id, st'.address⟩) with
      | some n => sys'.set tIsA (notify (sys'.get tIsA) n)
      | none => sys'

/-- One stabilization tick of one node, the body of stabilization_loop in
    src/src/node.py: stabilize, then fix_fingers, then check_predecessor. Both
    nodes of the system stay live, so Ping always succeeds. -/
def tick (fuel : Nat) (sys : Sys) (isA : Bool) : Sys :=
  let sys1 := stabilizeSys sys isA
  let sys2 := sys1.set isA (fix_fingers (sys1.get isA) (sysFindOracle fuel sys1))
  sys2.set isA (check_predecessor (sys2.get isA) fun _ => true)

/-- Run a schedule of ticks in order: true means the node at a:1 ticks, false
    means the node at b:2 ticks. -/
def runSched (fuel : Nat) (sys : Sys) : List Bool → Sys
  | [] => sys
  | s :: rest => runSched fuel (tick fuel sys s) rest

/-- hash_key of the address a:1 of scenario S2, that is SHA-1 of the UTF-8 string
    reduced modulo RING_SIZE, computed with hashlib as src/src/utils.py does. -/
def idA : Nat := 71

/-- hash_key of the address b:2 of scenario S2, computed likewise. -/
def idB : Nat := 65

/-- Node at a:1 after Node("a:1").join(None). -/
def nodeA0 : NodeState := (join_nil (Node.init "a:1" idA)).1

/-- FindSuccessor RPC environment seen by the node at b:2 while it joins: only
    the node at a:1 is live, and it is solo (successor itself), so its
    find_successor answers locally without any outbound RPC; the inner oracle it
    is handed is therefore never consulted and an always-failing one is exact. -/
def joinOracle : Oracle := fun addr i =>
  if addrIsA addr then
    match (find_successor nodeA0 (fun _ _ => Except.error ()) i).2 with
    | some r => Except.ok (node_info_to_proto r)
    | none => Except.error ()
  else Except.error ()

/-- Bootstrap reply to the join of the node at b:2: FindSuccessor(idB) served by
    the solo node at a:1. -/
def bootRespB : Except Unit ProtoNodeInfo := joinOracle "a:1" idB

/-- Node at b:2 after Node("b:2").join("a:1") through the solo node at a:1. -/
def nodeB0 : NodeState := (join_existing (Node.init "b:2" idB) bootRespB joinOracle).1

/-- The two-node system right after both joins of scenario S2. -/
def initSys : Sys := ⟨nodeA0, nodeB0⟩

/-- Invariant of the two-node system: the node at a:1 keeps itself as successor,
    its predecessor is absent or one of the two ring members, and the node at b:2
    keeps the node at a:1 as successor and never acquires a predecessor. -/
def SysInv (sys : Sys) : Prop :=
  sys.a.id = idA ∧ sys.a.address = "a:1" ∧ sys.a.successor = some ⟨idA, "a:1"⟩ ∧
  (sys.a.predecessor = none ∨ sys.a.predecessor = some ⟨idA, "a:1"⟩ ∨
    sys.a.predecessor = some ⟨idB, "b:2"⟩) ∧
  sys.b.id = idB ∧ sys.b.address = "b:2" ∧ sys.b.successor = some ⟨idA, "a:1"⟩ ∧
  sys.b.predecessor = none

/-- Number of clockwise steps from a to b on a ring of size N. -/
def walkDist (N a b : Nat) : Nat := (N + b - a) % N

/-- Reference predicate following the spec sentence: the naive clockwise walk
    from a to b visits (a + j) mod N for j = 0, 1, ..., walkDist; k lies in the
    interval when it is visited at some step j, with step 0 (the point a) allowed
    only when the start is inclusive and the final step (the point b) only when
    the end is inclusive. -/
def specWalkInRange (N k a b : Nat) (inclusive_start inclusive_end : Bool) : Bool :=
  let d := walkDist N a b
  (List.range (d + 1)).any fun j =>
    decide (k = (a + j) % N) && (inclusive_start || decide (j ≠ 0)) &&
      (inclusive_end || decide (j ≠ d))

/-- Reference reading of the spec sentence for closest_preceding_finger: scan the
    fingers from index m-1 down to 0 (that is, the reversed fingers list, first
    hit wins) for an owner whose id lies in the open interval (self.id, id); when
    none qualifies, the node itself. -/
def specScanCPF (st : NodeState) (idArg : Nat) : NodeInfo :=
  match st.fingers.reverse.findSome? (fun e =>
    match e with
    | some fe =>
      match fe.successor with
      | some fn =>
        if in_range fn.id st.id idArg false false = true then some fn else none
      | none => none
    | none => none) with
  | some fn => fn
  | none => ⟨st.id, st.address⟩

/-! Helper lemmas shared by the claim theorems. -/

theorem boolEqOfIff {x y : Bool} (h : x = true ↔ y = true) : x = y := by
  cases x <;> cases y <;> simp_all

/-- Degenerate interval of _in_range: equal and both-exclusive endpoints contain
    nothing. -/
theorem in_range_start_eq_stop (k s : Nat) : in_range k s s false false = false := by
  unfold in_range
  simp

/-- A both-exclusive interval never contains its own start point. -/
theorem in_range_key_eq_start (k e : Nat) : in_range k k e false false = false := by
  unfold in_range
  split_ifs <;> simp_all

/-- Core of claims C1 and C2: when the successor is the node itself, the adoption
    test of stabilize is false for every candidate, so the state is unchanged. -/
theorem stabilize_update_self (st : NodeState) (x : Option NodeInfo) (s : NodeInfo)
    (hs : st.successor = some s) (hid : s.id = st.id) :
    stabilize_update st x = st := by
  unfold stabilize_update
  rw [hs]
  cases x with
  | none => rfl
  | some xi =>
    dsimp only
    rw [hid, in_range_start_eq_stop]
    simp

theorem notify_fields (st : NodeState) (p : NodeInfo) :
    (notify st p).id = st.id ∧ (notify st p).address = st.address ∧
    (notify st p).successor = st.successor ∧
    ((notify st p).predecessor = st.predecessor ∨ (notify st p).predecessor = some p) := by
  unfold notify
  cases hp : st.predecessor with
  | none => exact ⟨rfl, rfl, rfl, Or.inr rfl⟩
  | some q =>
    dsimp only
    by_cases h : in_range p.id q.id st.id false false = true
    · rw [if_pos h]
      exact ⟨rfl, rfl, rfl, Or.inr rfl⟩
    · rw [if_neg h]
      exact ⟨rfl, rfl, rfl, Or.inl hp⟩

theorem fix_fingers_fields (st : NodeState) (oracle : Oracle) :
    (fix_fingers st oracle).id = st.id ∧ (fix_fingers st oracle).address = st.address ∧
    (fix_fingers st oracle).successor = st.successor ∧
    (fix_fingers st oracle).predecessor = st.predecessor := by
  unfold fix_fingers
  dsimp only
  cases (find_successor st oracle (fingerStart st.id st.next_finger)).2 <;>
    exact ⟨rfl, rfl, rfl, rfl⟩

theorem check_predecessor_alive (st : NodeState) :
    check_predecessor st (fun _ => true) = st := by
  unfold check_predecessor
  cases st.predecessor <;> simp

theorem Sys.set_get (sys : Sys) (isA : Bool) :
    Sys.set sys isA (Sys.get sys isA) = sys := by
  cases isA <;> rfl

/-! Claim theorems. -/

/-- C2: on a node whose successor is itself (a solo node), stabilize leaves the
    whole state - in particular the successor and finger 0 - unchanged, whatever
    candidate x the GetPredecessor reply decoded to: the adoption range test has
    equal, both-exclusive endpoints and is false for every x, so the predicate
    successor == self is preserved by stabilize. -/
theorem c2_solo_stabilize_unchanged (st : NodeState) (x : Option NodeInfo)
    (s : NodeInfo) (hs : st.successor = some s) (hid : s.id = st.id) :
    stabilize_update st x = st :=
  stabilize_update_self st x s hs hid

theorem c2_witness :
    stabilize_update (Node.init "a:1" 71) (some ⟨3, "x:9"⟩) = Node.init "a:1" 71 :=
  c2_solo_stabilize_unchanged (Node.init "a:1" 71) (some ⟨3, "x:9"⟩) ⟨71, "a:1"⟩ rfl rfl

/-- C9: notify is idempotent: a second notify with the same NodeRef leaves the
    predecessor (indeed the whole state) exactly as it was after the first call. -/
theorem c9_notify_idempotent (st : NodeState) (p : NodeInfo) :
    notify (notify st p) p = notify st p := by
  cases hp : st.predecessor with
  | none =>
    have h1 : notify st p = { st with predecessor := some p } := by
      unfold notify
      rw [hp]
    rw [h1]
    unfold notify
    dsimp only
    rw [in_range_key_eq_start]
    simp
  | some q =>
    by_cases h : in_range p.id q.id st.id false false = true
    · have h1 : notify st p = { st with predecessor := some p } := by
        unfold notify
        rw [hp]
        dsimp only
        rw [if_pos h]
      rw [h1]
      unfold notify
      dsimp only
      rw [in_range_key_eq_start]
      simp
    · have h1 : notify st p = st := by
        unfold notify
        rw [hp]
        dsimp only
        rw [if_neg h]
      rw [h1, h1]

/-- C7: after join(nil), a solo node resolves find_successor(k) to itself for
    every identifier k of the ring: the doubly inclusive range test with equal
    endpoints is true, so the lookup short-circuits to the local successor, which
    join(nil) set to NodeInfo(id, address). -/
theorem c7_solo_find_successor (address : String) (idv k : Nat) (oracle : Oracle)
    (hk : k < RING_SIZE) :
    find_successor (join_nil (Node.init address idv)).1 oracle k =
      ((join_nil (Node.init address idv)).1, some ⟨idv, address⟩) := by
  unfold find_successor join_nil Node.init
  simp [in_range]

theorem c7_witness :
    find_successor (join_nil (Node.init "a:1" 71)).1 (fun _ _ => Except.error ()) 5 =
      ((join_nil (Node.init "a:1" 71)).1, some ⟨71, "a:1"⟩) :=
  c7_solo_find_successor "a:1" 71 5 (fun _ _ => Except.error ()) (by decide)

theorem cpfAux_all_unset (st : NodeState) (idArg : Nat)
    (h : ∀ i, st.fingers.getD i none = none) :
    ∀ n, cpfAux st idArg n = none := by
  intro n
  induction n with
  | zero => rfl
  | succ i ih =>
    unfold cpfAux
    rw [h i]
    exact ih

/-- C10: a node that was constructed but has not run join has all RING_BITS
    finger entries unset; closest_preceding_finger skips them all and returns the
    node itself without dereferencing an unset entry, and find_successor returns
    the initial successor (the node itself) for every id, leaving the state
    unchanged. -/
theorem c10_fresh_node_total (address : String) (idv k : Nat) (oracle : Oracle) :
    (Node.init address idv).fingers = List.replicate RING_BITS none ∧
    closest_preceding_finger (Node.init address idv) k = ⟨idv, address⟩ ∧
    find_successor (Node.init address idv) oracle k =
      (Node.init address idv, some ⟨idv, address⟩) := by
  refine ⟨rfl, ?_, ?_⟩
  · unfold closest_preceding_finger
    rw [cpfAux_all_unset]
    · rfl
    · intro i
      show (List.replicate RING_BITS (none : Option FingerEntry)).getD i none = none
      rw [List.getD_eq_getElem?_getD, List.getElem?_replicate]
      split_ifs <;> rfl
  · unfold find_successor Node.init
    simp [in_range]

/-- C8: find_successor never propagates an RPC error: when the forwarding RPC to
    the closest preceding finger raises, the error is only logged and the local
    successor is returned, the node state unchanged (the method performs no
    assignment, so the returned state is the input state on every path). -/
theorem c8_lookup_error_fallback (st : NodeState) (oracle : Oracle) (idArg : Nat)
    (s : NodeInfo) (hs : st.successor = some s)
    (herr : oracle (closest_preceding_finger st idArg).address idArg = Except.error ()) :
    find_successor st oracle idArg = (st, some s) := by
  unfold find_successor
  rw [hs]
  dsimp only
  by_cases h1 : in_range idArg st.id s.id true true = true
  · rw [if_pos h1]
  · rw [if_neg h1]
    by_cases h2 : (closest_preceding_finger st idArg).id = st.id
    · rw [if_pos h2]
    · rw [if_neg h2, herr]

theorem c8_witness :
    find_successor (Node.init "a:1" 71) (fun _ _ => Except.error ()) 5 =
      (Node.init "a:1" 71, some ⟨71, "a:1"⟩) :=
  c8_lookup_error_fallback (Node.init "a:1" 71) (fun _ _ => Except.error ()) 5
    ⟨71, "a:1"⟩ rfl rfl

/-- C5: stabilize adopts a successor exactly under the stated condition: given a
    decoded candidate x from GetPredecessor, when x exists with x.id different
    from self and x.id in the open interval (self.id, successor.id) the successor
    becomes x and finger 0 is rewritten to x; in every other case (condition
    false, or x absent) the state is unchanged. -/
theorem c5_stabilize_adoption (st : NodeState) (s xi : NodeInfo)
    (hs : st.successor = some s) :
    (xi.id ≠ st.id ∧ in_range xi.id st.id s.id false false = true →
      stabilize_update st (some xi) =
        { st with
            successor := some xi
            fingers := st.fingers.set 0 (some ⟨fingerStart st.id 0, some xi⟩) }) ∧
    (xi.id = st.id ∨ in_range xi.id st.id s.id false false = false →
      stabilize_update st (some xi) = st) ∧
    stabilize_update st none = st := by
  unfold stabilize_update
  rw [hs]
  dsimp only
  refine ⟨fun h => ?_, fun h => ?_, rfl⟩
  · rw [if_pos h]
  · rw [if_neg ?_]
    rcases h with h | h
    · exact fun hc => hc.1 h
    · exact fun hc => by rw [h] at hc; exact absurd hc.2 (by simp)

theorem c5_witness :
    stabilize_update { Node.init "a:1" 10 with successor := some ⟨100, "c:3"⟩ }
        (some ⟨50, "x:5"⟩) =
      { Node.init "a:1" 10 with
          successor := some ⟨50, "x:5"⟩
          fingers := (Node.init "a:1" 10).fingers.set 0
            (some ⟨fingerStart 10 0, some ⟨50, "x:5"⟩⟩) } :=
  (c5_stabilize_adoption { Node.init "a:1" 10 with successor := some ⟨100, "c:3"⟩ }
    ⟨100, "c:3"⟩ ⟨50, "x:5"⟩ rfl).1 (by refine ⟨by decide, by decide⟩)

/-- C3 is violated by the code: when the bootstrap FindSuccessor RPC succeeds but
    its reply is the empty NodeInfo message (the wire encoding of an absent
    NodeRef), join stores the decoded None into self.successor before checking
    it, then raises, catches its own exception and returns False - so the failed
    join leaves the node with successor = None, not with its state unchanged. -/
theorem c3_failed_join_nulls_successor :
    (join_existing (Node.init "b:2" idB) (Except.ok ⟨none, ""⟩)
        (fun _ _ => Except.error ())).1.successor = none ∧
    (join_existing (Node.init "b:2" idB) (Except.ok ⟨none, ""⟩)
        (fun _ _ => Except.error ())).2 = false := by
  constructor <;> rfl

/-! Development for C4: the range predicate against the naive clockwise walk. -/

theorem walkDist_no_wrap (N a b : Nat) (hab : a < b) (hb : b < N) :
    walkDist N a b = b - a := by
  unfold walkDist
  have h1 : N + b - a = N + (b - a) := by omega
  rw [h1, Nat.add_mod_left]
  exact Nat.mod_eq_of_lt (by omega)

theorem walkDist_wrap (N a b : Nat) (hab : b < a) (ha : a < N) :
    walkDist N a b = N + b - a := by
  unfold walkDist
  exact Nat.mod_eq_of_lt (by omega)

theorem in_range_iff_no_wrap (k a b : Nat) (ia ib : Bool) (hab : a < b) :
    in_range k a b ia ib = true ↔
      (a ≤ k ∧ k ≤ b ∧ (ia = true ∨ k ≠ a) ∧ (ib = true ∨ k ≠ b)) := by
  unfold in_range
  rw [if_neg (Nat.ne_of_lt hab), if_pos hab]
  cases ia <;> cases ib <;> simp <;> omega

theorem in_range_iff_wrap (k a b : Nat) (ia ib : Bool) (hab : b < a) :
    in_range k a b ia ib = true ↔
      ((a ≤ k ∨ k ≤ b) ∧ (ia = true ∨ k ≠ a) ∧ (ib = true ∨ k ≠ b)) := by
  unfold in_range
  rw [if_neg (Ne.symm (Nat.ne_of_lt hab)), if_neg (by omega : ¬a < b)]
  cases ia <;> cases ib <;> simp <;> omega

theorem specWalk_iff_no_wrap (N k a b : Nat) (ia ib : Bool) (hab : a < b)
    (hb : b < N) (hk : k < N) :
    specWalkInRange N k a b ia ib = true ↔
      (a ≤ k ∧ k ≤ b ∧ (ia = true ∨ k ≠ a) ∧ (ib = true ∨ k ≠ b)) := by
  have hd := walkDist_no_wrap N a b hab hb
  simp only [specWalkInRange]
  rw [hd, List.any_eq_true]
  constructor
  · rintro ⟨j, hj, hpred⟩
    rw [List.mem_range] at hj
    simp only [Bool.and_eq_true, Bool.or_eq_true, decide_eq_true_eq] at hpred
    obtain ⟨⟨hkj, h0⟩, hdl⟩ := hpred
    have hmod : (a + j) % N = a + j := Nat.mod_eq_of_lt (by omega)
    rw [hmod] at hkj
    refine ⟨by omega, by omega, ?_, ?_⟩
    · rcases h0 with h | h
      · exact Or.inl h
      · exact Or.inr (by omega)
    · rcases hdl with h | h
      · exact Or.inl h
      · exact Or.inr (by omega)
  · rintro ⟨h1, h2, h3, h4⟩
    refine ⟨k - a, ?_, ?_⟩
    · rw [List.mem_range]
      omega
    · have hval : a + (k - a) = k := by omega
      have hmod : (a + (k - a)) % N = k := by
        rw [hval]
        exact Nat.mod_eq_of_lt hk
      simp only [Bool.and_eq_true, Bool.or_eq_true, decide_eq_true_eq]
      refine ⟨⟨by rw [hmod], ?_⟩, ?_⟩
      · rcases h3 with h | h
        · exact Or.inl h
        · exact Or.inr (by omega)
      · rcases h4 with h | h
        · exact Or.inl h
        · exact Or.inr (by omega)

theorem specWalk_iff_wrap (N k a b : Nat) (ia ib : Bool) (hab : b < a)
    (ha : a < N) (hk : k < N) :
    specWalkInRange N k a b ia ib = true ↔
      ((a ≤ k ∨ k ≤ b) ∧ (ia = true ∨ k ≠ a) ∧ (ib = true ∨ k ≠ b)) := by
  have hd := walkDist_wrap N a b hab ha
  simp only [specWalkInRange]
  rw [hd, List.any_eq_true]
  constructor
  · rintro ⟨j, hj, hpred⟩
    rw [List.mem_range] at hj
    simp only [Bool.and_eq_true, Bool.or_eq_true, decide_eq_true_eq] at hpred
    obtain ⟨⟨hkj, h0⟩, hdl⟩ := hpred
    by_cases hsm : a + j < N
    · have hmod : (a + j) % N = a + j := Nat.mod_eq_of_lt hsm
      rw [hmod] at hkj
      refine ⟨Or.inl (by omega), ?_, Or.inr (by omega)⟩
      rcases h0 with h | h
      · exact Or.inl h
      · exact Or.inr (by omega)
    · have hmod : (a + j) % N = a + j - N := by
        rw [Nat.mod_eq_sub_mod (by omega)]
        exact Nat.mod_eq_of_lt (by omega)
      rw [hmod] at hkj
      refine ⟨Or.inr (by omega), Or.inr (by omega), ?_⟩
      rcases hdl with h | h
      · exact Or.inl h
      · exact Or.inr (by omega)
  · rintro ⟨h1, h3, h4⟩
    rcases h1 with hka | hkb
    · refine ⟨k - a, ?_, ?_⟩
      · rw [List.mem_range]
        omega
      · have hval : a + (k - a) = k := by omega
        have hmod : (a + (k - a)) % N = k := by
          rw [hval]
          exact Nat.mod_eq_of_lt hk
        simp only [Bool.and_eq_true, Bool.or_eq_true, decide_eq_true_eq]
        refine ⟨⟨by rw [hmod], ?_⟩, Or.inr (by omega)⟩
        rcases h3 with h | h
        · exact Or.inl h
        · exact Or.inr (by omega)
    · refine ⟨N - a + k, ?_, ?_⟩
      · rw [List.mem_range]
        omega
      · have hval : a + (N - a + k) = N + k := by omega
        have hmod : (a + (N - a + k)) % N = k := by
          rw [hval, Nat.add_mod_left]
          exact Nat.mod_eq_of_lt hk
        simp only [Bool.and_eq_true, Bool.or_eq_true, decide_eq_true_eq]
        refine ⟨⟨by rw [hmod], Or.inr (by omega)⟩, ?_⟩
        rcases h4 with h | h
        · exact Or.inl h
        · exact Or.inr (by omega)

/-- C4: for distinct endpoints inside the ring, _in_range agrees with the naive
    clockwise walk from a to b for all four inclusivity combinations, and for
    equal endpoints it returns inclusive_start OR inclusive_end. -/
theorem c4_in_range_matches_spec_walk (N k a b : Nat) (ia ib : Bool)
    (ha : a < N) (hb : b < N) (hk : k < N) :
    (a ≠ b → in_range k a b ia ib = specWalkInRange N k a b ia ib) ∧
    in_range k a a ia ib = (ia || ib) := by
  constructor
  · intro hab
    rcases Nat.lt_or_ge a b with h | h
    · exact boolEqOfIff ((in_range_iff_no_wrap k a b ia ib h).trans
        (specWalk_iff_no_wrap N k a b ia ib h hb hk).symm)
    · have h' : b < a := by omega
      exact boolEqOfIff ((in_range_iff_wrap k a b ia ib h').trans
        (specWalk_iff_wrap N k a b ia ib h' ha hk).symm)
  · unfold in_range
    simp

theorem c4_witness :
    in_range 40 10 80 false true = specWalkInRange 256 40 10 80 false true ∧
    in_range 40 10 10 false true = (false || true) :=
  ⟨(c4_in_range_matches_spec_walk 256 40 10 80 false true (by decide) (by decide)
      (by decide)).1 (by decide),
   (c4_in_range_matches_spec_walk 256 40 10 10 false true (by decide) (by decide)
      (by decide)).2⟩

/-! Development for C6: the finger scan against the spec reading. -/

theorem cpfAux_eq_findSome (st : NodeState) (idArg : Nat) :
    ∀ n, n ≤ st.fingers.length →
      cpfAux st idArg n = (st.fingers.take n).reverse.findSome? (fun e =>
        match e with
        | some fe =>
          match fe.successor with
          | some fn =>
            if in_range fn.id st.id idArg false false = true then some fn else none
          | none => none
        | none => none) := by
  intro n
  induction n with
  | zero => intro _; rfl
  | succ i ih =>
    intro h
    have hi : i < st.fingers.length := by omega
    have hsome : st.fingers[i]? = some st.fingers[i] := List.getElem?_eq_getElem hi
    have htake : (st.fingers.take (i + 1)).reverse
        = st.fingers[i] :: (st.fingers.take i).reverse := by
      rw [List.take_succ, hsome]
      simp
    rw [htake, List.findSome?_cons]
    have hgetD : st.fingers.getD i none = st.fingers[i] := by
      rw [List.getD_eq_getElem?_getD, hsome]
      rfl
    unfold cpfAux
    rw [hgetD]
    cases st.fingers[i] with
    | none => exact ih (by omega)
    | some fe =>
      dsimp only
      cases fe.successor with
      | none => exact ih (by omega)
      | some fn =>
        dsimp only
        by_cases hq : in_range fn.id st.id idArg false false = true
        · rw [if_pos hq, if_pos hq]
        · rw [if_neg hq, if_neg hq]
          exact ih (by omega)

/-- C6: closest_preceding_finger scans the finger table from index m-1 down to 0
    and returns the owner of the first entry whose id lies in the open interval
    (self.id, id), falling back to a NodeRef for the node itself when no entry
    qualifies - exactly the spec-side scan of the reversed fingers list. -/
theorem c6_closest_preceding_finger_spec (st : NodeState) (idArg : Nat) :
    closest_preceding_finger st idArg = specScanCPF st idArg := by
  unfold closest_preceding_finger specScanCPF
  rw [cpfAux_eq_findSome st idArg st.fingers.length le_rfl, List.take_length]
  cases (st.fingers.reverse.findSome? fun e =>
    match e with
    | some fe =>
      match fe.successor with
      | some fn =>
        if in_range fn.id st.id idArg false false = true then some fn else none
      | none => none
    | none => none) <;> rfl

/-! Development for C1: the two-node system of scenario S2 never reaches the
    converged ring, because a solo node can never adopt a successor. -/

theorem decode_encode_A :
    proto_to_node_info (node_info_to_proto ⟨idA, "a:1"⟩) = some ⟨idA, "a:1"⟩ := rfl

theorem decode_encode_B :
    proto_to_node_info (node_info_to_proto ⟨idB, "b:2"⟩) = some ⟨idB, "b:2"⟩ := rfl

theorem stabilizeSys_A (sys : Sys) (h : SysInv sys) :
    stabilizeSys sys true = { sys with a := notify sys.a ⟨idA, "a:1"⟩ } := by
  obtain ⟨hA1, hA2, hA3, hApred, hB1, hB2, hB3, hB4⟩ := h
  have hsu : ∀ x, stabilize_update sys.a x = sys.a :=
    fun x => stabilize_update_self sys.a x ⟨idA, "a:1"⟩ hA3 (by rw [hA1])
  have haddr : addrIsA "a:1" = true := rfl
  unfold stabilizeSys
  simp only [Sys.get, hA3]
  simp only [haddr, Sys.get, hsu, hA3]
  simp only [hA1, hA2, decode_encode_A, haddr]
  rfl

theorem stabilizeSys_B (sys : Sys) (h : SysInv sys) :
    stabilizeSys sys false = { sys with a := notify sys.a ⟨idB, "b:2"⟩ } := by
  obtain ⟨hA1, hA2, hA3, hApred, hB1, hB2, hB3, hB4⟩ := h
  have haddr : addrIsA "a:1" = true := rfl
  have hsu : stabilize_update sys.b (proto_to_node_info (getPredecessorHandler sys.a))
      = sys.b := by
    rcases hApred with hp | hp | hp
    · unfold getPredecessorHandler
      rw [hp]
      unfold stabilize_update
      rw [hB3]
      rfl
    · unfold getPredecessorHandler
      rw [hp]
      dsimp only
      rw [decode_encode_A]
      unfold stabilize_update
      rw [hB3]
      dsimp only
      rw [hB1]
      rw [if_neg (by decide)]
    · unfold getPredecessorHandler
      rw [hp]
      dsimp only
      rw [decode_encode_B]
      unfold stabilize_update
      rw [hB3]
      dsimp only
      rw [hB1]
      rw [if_neg (by decide)]
  unfold stabilizeSys
  simp only [Sys.get, hB3]
  simp only [haddr, Sys.get, hsu, hB3]
  simp only [hB1, hB2, decode_encode_B, haddr]
  rfl

theorem SysInv_notify_a (sys : Sys) (h : SysInv sys) (n : NodeInfo)
    (hn : n = ⟨idA, "a:1"⟩ ∨ n = ⟨idB, "b:2"⟩) :
    SysInv { sys with a := notify sys.a n } := by
  obtain ⟨hA1, hA2, hA3, hApred, hB1, hB2, hB3, hB4⟩ := h
  obtain ⟨n1, n2, n3, n4⟩ := notify_fields sys.a n
  refine ⟨n1.trans hA1, n2.trans hA2, n3.trans hA3, ?_, hB1, hB2, hB3, hB4⟩
  rcases n4 with h4 | h4
  · rcases hApred with hp | hp | hp
    · exact Or.inl (h4.trans hp)
    · exact Or.inr (Or.inl (h4.trans hp))
    · exact Or.inr (Or.inr (h4.trans hp))
  · rcases hn with rfl | rfl
    · exact Or.inr (Or.inl h4)
    · exact Or.inr (Or.inr h4)

theorem SysInv_fix (fuel : Nat) (sys : Sys) (isA : Bool) (h : SysInv sys) :
    SysInv (Sys.set sys isA (fix_fingers (Sys.get sys isA) (sysFindOracle fuel sys))) := by
  obtain ⟨hA1, hA2, hA3, hApred, hB1, hB2, hB3, hB4⟩ := h
  obtain ⟨f1, f2, f3, f4⟩ := fix_fingers_fields (Sys.get sys isA) (sysFindOracle fuel sys)
  cases isA
  · exact ⟨hA1, hA2, hA3, hApred, f1.trans hB1, f2.trans hB2, f3.trans hB3,
      f4.trans hB4⟩
  · refine ⟨f1.trans hA1, f2.trans hA2, f3.trans hA3, ?_, hB1, hB2, hB3, hB4⟩
    rcases hApred with hp | hp | hp
    · exact Or.inl (f4.trans hp)
    · exact Or.inr (Or.inl (f4.trans hp))
    · exact Or.inr (Or.inr (f4.trans hp))

theorem SysInv_tick (fuel : Nat) (sys : Sys) (isA : Bool) (h : SysInv sys) :
    SysInv (tick fuel sys isA) := by
  have h1 : SysInv (stabilizeSys sys isA) := by
    cases isA
    · rw [stabilizeSys_B sys h]
      exact SysInv_notify_a sys h ⟨idB, "b:2"⟩ (Or.inr rfl)
    · rw [stabilizeSys_A sys h]
      exact SysInv_notify_a sys h ⟨idA, "a:1"⟩ (Or.inl rfl)
  unfold tick
  dsimp only
  rw [check_predecessor_alive, Sys.set_get]
  exact SysInv_fix fuel (stabilizeSys sys isA) isA h1

theorem SysInv_runSched (fuel : Nat) (sched : List Bool) :
    ∀ sys : Sys, SysInv sys → SysInv (runSched fuel sys sched) := by
  induction sched with
  | nil => exact fun sys h => h
  | cons s rest ih => exact fun sys h => ih (tick fuel sys s) (SysInv_tick fuel sys s h)

theorem SysInv_init : SysInv initSys := by
  unfold SysInv
  decide

/-- C1 is violated by the code: in the two-node system of scenario S2 (the node
    at a:1 joins nil, the node at b:2 joins through it), after ANY schedule of
    stabilization ticks in ANY interleaving - in particular after five or more
    ticks on both nodes - the successor of the node at a:1 is still itself, never
    the node at b:2 (the two ids differ, and Python compares NodeInfo by id), and
    the node at b:2 still has no predecessor: the adoption test of stabilize,
    in_range(x.id, self.id, successor.id) with both endpoints exclusive, is false
    for every x when successor == self, so the solo node can never leave the
    solo state and the ring never converges. -/
theorem c1_two_node_never_converges (fuel : Nat) (sched : List Bool) :
    (runSched fuel initSys sched).a.successor = some ⟨idA, "a:1"⟩ ∧
    (runSched fuel initSys sched).b.predecessor = none ∧
    NodeInfo.pyEq ⟨idA, "a:1"⟩ ⟨idB, "b:2"⟩ = false := by
  obtain ⟨_, _, h3, _, _, _, _, h8⟩ := SysInv_runSched fuel sched initSys SysInv_init
  exact ⟨h3, h8, by decide⟩

end Chord
